import Mathlib

/-! Verification of the metamcp tool-discovery subsystem.

This file shallowly embeds the tool-search service, the search providers
(REGEX / BM25 entry behaviour, tokenization and scoring), the defer-loading
middleware and configuration resolver, the builtin execute-tool dispatcher,
and the tool-search-config input validation, and proves or refutes the
spec claims about them.

Numbers that the TypeScript source manipulates as IEEE doubles are modelled
as exact rationals; the claims checked here concern the algebraic structure
of the computations (branch selection, list shapes, exact constant scores),
not float rounding.
-/

namespace MetaMCP

/-- JSON values, used for provider configs and tool input schemas. -/
inductive Json where
  | null : Json
  | bool (b : Bool) : Json
  | num (q : ℚ) : Json
  | str (s : String) : Json
  | arr (elems : List Json) : Json
  | obj (fields : List (String × Json)) : Json

/-- Search method enum (`tool_search_method`). -/
inductive SearchMethod where
  | NONE | REGEX | BM25 | EMBEDDINGS
deriving DecidableEq, Repr

/-- Defer loading behaviour enum (`defer_loading_behavior`). -/
inductive DeferLoadingBehavior where
  | INHERIT | ENABLED | DISABLED
deriving DecidableEq, Repr

/-- Tool visibility enum (`tool_visibility_mode`). -/
inductive ToolVisibility where
  | ALL | SEARCH_ONLY
deriving DecidableEq, Repr

/-- An MCP tool as advertised to clients.  The advertised form may carry the
additional `defer_loading` field; `none` models the field being unset. -/
structure Tool where
  name : String
  description : Option String
  inputSchema : Option Json
  defer_loading : Option Bool

/-- A tool paired with the uuid of the upstream server providing it. -/
structure ToolWithServer where
  tool : Tool
  serverUuid : String

/-- A search query (`ToolSearchQuery`). -/
structure ToolSearchQuery where
  query : String
  maxResults : Option Nat
  namespaceUuid : Option String
  endpointUuid : Option String

/-- A single ranked search result (`ToolSearchResult`). -/
structure ToolSearchResult where
  tool : Tool
  serverUuid : String
  score : ℚ
  matchReason : String

/-- Evaluation of `query.maxResults || 5` — JavaScript `||` treats `0` as falsy. -/
def effMaxResults (q : ToolSearchQuery) : Nat :=
  match q.maxResults with
  | some m => if m = 0 then 5 else m
  | none => 5

/-- Public name of the builtin search tool (`TOOL_SEARCH_TOOL_NAME`). -/
def TOOL_SEARCH_TOOL_NAME : String := "metamcp_search_tools"

/-- Public name of the builtin execute tool (`TOOL_EXECUTE_TOOL_NAME`). -/
def TOOL_EXECUTE_TOOL_NAME : String := "metamcp_execute_tool"

/-- Search configuration resolved from the database
(`ResolvedSearchConfig` in `tool-search-service.ts`). -/
structure ResolvedSearchConfig where
  searchMethod : SearchMethod
  maxResults : Nat
  providerConfig : Option Json

/-- Embedding of `ToolSearchService.search`.  The provider dispatch
(`getProvider` + `provider.search`) is abstracted as the `providerSearch`
argument; the `NONE` short-circuit and the `maxResults` defaulting are
embedded exactly as written in the source. -/
def serviceSearch
    (providerSearch : SearchMethod → Option Json → ToolSearchQuery →
      List ToolWithServer → List ToolSearchResult)
    (query : ToolSearchQuery) (availableTools : List ToolWithServer)
    (config : ResolvedSearchConfig) : List ToolSearchResult :=
  if config.searchMethod = SearchMethod.NONE then
    availableTools.map fun tw =>
      { tool := tw.tool, serverUuid := tw.serverUuid, score := 0.5,
        matchReason := "Search disabled (method: NONE)" }
  else
    let queryWithDefaults : ToolSearchQuery :=
      { query with
        maxResults := some (match query.maxResults with
          | some m => if m = 0 then config.maxResults else m
          | none => config.maxResults) }
    providerSearch config.searchMethod config.providerConfig
      queryWithDefaults availableTools

/-! Section: Defer-loading middleware (`defer-loading-middleware`) -/

/-- Namespace defaults consumed by the resolver (`NamespaceConfig`). -/
structure NamespaceConfig where
  default_defer_loading : Bool
  default_search_method : SearchMethod

/-- The endpoint `override_search_method` field.  Its TypeScript type is
`SearchMethod | "INHERIT"`, and the resolver additionally guards against the
value being `undefined`; `none` models `undefined`. -/
inductive SearchMethodOverride where
  | inherit : SearchMethodOverride
  | method (m : SearchMethod) : SearchMethodOverride
deriving DecidableEq, Repr

/-- Endpoint overrides consumed by the resolver (`EndpointConfig`). -/
structure EndpointConfig where
  override_defer_loading : DeferLoadingBehavior
  override_search_method : Option SearchMethodOverride

/-- Per-tool overrides (`ToolOverrides`): a JavaScript record mapping a public
tool name to a boolean, modelled as an association list with the record's
unique keys; `lookup` is property access. -/
def ToolOverrides := List (String × Bool)

/-- Resolved configuration (`ResolvedDeferLoadingConfig`). -/
structure ResolvedDeferLoadingConfig where
  deferLoadingEnabled : Bool
  searchMethod : SearchMethod
  toolOverrides : ToolOverrides

/-- Embedding of `resolveDeferLoadingConfig`: collapse namespace defaults and endpoint
overrides into one view. -/
def resolveDeferLoadingConfig (namespaceCfg : NamespaceConfig)
    (endpoint : EndpointConfig) (toolOverrides : ToolOverrides) :
    ResolvedDeferLoadingConfig :=
  let deferLoadingEnabled :=
    match endpoint.override_defer_loading with
    | DeferLoadingBehavior.ENABLED => true
    | DeferLoadingBehavior.DISABLED => false
    | DeferLoadingBehavior.INHERIT => namespaceCfg.default_defer_loading
  let searchMethod :=
    match endpoint.override_search_method with
    | some (SearchMethodOverride.method m) => m
    | some SearchMethodOverride.inherit => namespaceCfg.default_search_method
    | none => namespaceCfg.default_search_method
  { deferLoadingEnabled := deferLoadingEnabled,
    searchMethod := searchMethod,
    toolOverrides := toolOverrides }

/-- In `fetchAndCacheConfig`, an absent endpoint row is replaced by the pair
of `INHERIT` overrides before calling the resolver. -/
def endpointOrInherit : Option EndpointConfig → EndpointConfig
  | some e => e
  | none =>
    { override_defer_loading := DeferLoadingBehavior.INHERIT,
      override_search_method := some SearchMethodOverride.inherit }

/-- The resolver applied to an optional endpoint row, as `fetchAndCacheConfig`
does. -/
def resolveConfigForEndpoint (namespaceCfg : NamespaceConfig)
    (endpoint : Option EndpointConfig) (toolOverrides : ToolOverrides) :
    ResolvedDeferLoadingConfig :=
  resolveDeferLoadingConfig namespaceCfg (endpointOrInherit endpoint)
    toolOverrides

/-- Embedding of `DeferLoadingMiddleware.getFailSafeConfig`. -/
def getFailSafeConfig : ResolvedDeferLoadingConfig :=
  { deferLoadingEnabled := false,
    searchMethod := SearchMethod.NONE,
    toolOverrides := [] }

/-- The middleware's `configCache` keyed by endpoint uuid. -/
def ConfigCache := List (String × ResolvedDeferLoadingConfig)

/-- JavaScript `Map.set` on the config cache. -/
def cacheSet (cache : ConfigCache) (key : String)
    (value : ResolvedDeferLoadingConfig) : ConfigCache :=
  (key, value) :: List.filter (fun p => p.1 ≠ key) cache

/-- JavaScript `Map.get` on the config cache. -/
def cacheGet (cache : ConfigCache) (key : String) :
    Option ResolvedDeferLoadingConfig :=
  List.lookup key cache

/-- The outcomes of the three repository reads performed by
`fetchAndCacheConfig`.  `Except.error` models the awaited call throwing;
`Except.ok none` for the first two models the row being absent. -/
structure FetchResults where
  namespaceResult : Except Unit (Option NamespaceConfig)
  endpointResult : Except Unit (Option EndpointConfig)
  overridesResult : Except Unit ToolOverrides

/-- Embedding of `DeferLoadingMiddleware.fetchAndCacheConfig`: resolve the hierarchy from
the repository reads, cache the result on success, and fall back to the
fail-safe configuration — without caching it — when the namespace is missing
or any read throws (the `try`/`catch` around the whole body). -/
def fetchAndCacheConfig (cache : ConfigCache) (endpointUuid : String)
    (fetch : FetchResults) : ResolvedDeferLoadingConfig × ConfigCache :=
  match fetch.namespaceResult with
  | Except.error _ => (getFailSafeConfig, cache)
  | Except.ok none => (getFailSafeConfig, cache)
  | Except.ok (some namespaceCfg) =>
    match fetch.endpointResult with
    | Except.error _ => (getFailSafeConfig, cache)
    | Except.ok endpoint =>
      match fetch.overridesResult with
      | Except.error _ => (getFailSafeConfig, cache)
      | Except.ok toolOverrides =>
        let resolved :=
          resolveConfigForEndpoint namespaceCfg endpoint toolOverrides
        (resolved, cacheSet cache endpointUuid resolved)

/-- Embedding of `DeferLoadingMiddleware.getResolvedConfig`: return the cached entry when
present, otherwise fetch (the single-flight `pendingFetches` coalescing is a
concurrency artefact with no effect on the sequential result). -/
def getResolvedConfig (cache : ConfigCache) (endpointUuid : String)
    (fetch : FetchResults) : ResolvedDeferLoadingConfig × ConfigCache :=
  match cacheGet cache endpointUuid with
  | some cached => (cached, cache)
  | none => fetchAndCacheConfig cache endpointUuid fetch

/-- One step of `DeferLoadingMiddleware.applyDeferLoading`'s `tools.map`
callback. -/
def applyDeferLoadingTool (config : ResolvedDeferLoadingConfig)
    (tool : Tool) : Tool :=
  if tool.name = TOOL_SEARCH_TOOL_NAME then
    tool
  else
    match List.lookup tool.name config.toolOverrides with
    | some true => { tool with defer_loading := some true }
    | some false => tool
    | none =>
      if config.deferLoadingEnabled then
        { tool with defer_loading := some true }
      else
        tool

/-- Embedding of `DeferLoadingMiddleware.applyDeferLoading`. -/
def applyDeferLoading (tools : List Tool)
    (config : ResolvedDeferLoadingConfig) : List Tool :=
  tools.map (applyDeferLoadingTool config)

/-- Modelled from the spec: the repository's full configuration resolver
(§4.E) resolves a richer per-endpoint snapshot — additionally carrying
`toolVisibility`, `maxResults` and `providerConfig` — than the
`ResolvedDeferLoadingConfig` present in the sources; only its documentation
and tests appear here.  This is its resolved-config shape. -/
structure RichResolvedConfig where
  deferLoadingEnabled : Bool
  searchMethod : SearchMethod
  toolVisibility : ToolVisibility
  toolOverrides : ToolOverrides
  maxResults : Nat
  providerConfig : Option Json

/-- Modelled from the spec: the full resolver's fail-safe configuration
`{deferLoadingEnabled=false, searchMethod=NONE, toolVisibility=ALL,
toolOverrides={}, maxResults=5, providerConfig=null}` (§4.E). -/
def richFailSafeConfig : RichResolvedConfig :=
  { deferLoadingEnabled := false,
    searchMethod := SearchMethod.NONE,
    toolVisibility := ToolVisibility.ALL,
    toolOverrides := [],
    maxResults := 5,
    providerConfig := none }

/-- Projection of the spec's rich resolved config onto the fields the
in-source middleware resolves. -/
def RichResolvedConfig.core (c : RichResolvedConfig) :
    ResolvedDeferLoadingConfig :=
  { deferLoadingEnabled := c.deferLoadingEnabled,
    searchMethod := c.searchMethod,
    toolOverrides := c.toolOverrides }

/-- JavaScript `String.prototype.trim`: strip leading and trailing
whitespace (kept kernel-computable by working on the character list). -/
def jsTrim (s : String) : String :=
  String.mk
    (((s.toList.dropWhile Char.isWhitespace).reverse.dropWhile
      Char.isWhitespace).reverse)

/-! Section: REGEX search provider (`regex-search-provider.ts`) -/

/-- Provider configuration after `initialize` merged the user config over the
defaults (`RegexSearchConfig`). -/
structure RegexSearchConfig where
  pattern : Option String
  caseInsensitive : Bool
  fields : List String

/-- The provider's default configuration. -/
def defaultRegexConfig : RegexSearchConfig :=
  { pattern := none, caseInsensitive := true,
    fields := ["name", "description"] }

/-- The regex metacharacters escaped by `escapeRegexLiteral`
(`/[.*+?^${}()|[\]\\]/g`). -/
def isRegexMeta (c : Char) : Bool :=
  c = '.' || c = '*' || c = '+' || c = '?' || c = '^' || c = '$' ||
  c = '\x7b' || c = '\x7d' || c = '(' || c = ')' || c = '|' ||
  c = '[' || c = ']' || c = '\\'

/-- Embedding of `escapeRegexLiteral`: prepend a backslash to every metacharacter. -/
def escapeRegexLiteral (s : String) : String :=
  String.mk (s.toList.foldr
    (fun c acc => (if isRegexMeta c then ['\\', c] else [c]) ++ acc) [])

/-- One recorded field match `(field, index, matchLength)`. -/
structure FieldMatch where
  field : String
  index : Nat
  matchLength : Nat

/-- Embedding of `RegexSearchProvider.searchTool`: at most one match per configured field;
a non-`name` field reads `tool.description || ""`.  `regexFind pattern ci
text` abstracts `new RegExp(pattern, ci ? "i" : "").exec(text)`, returning
the match index and length. -/
def searchToolFields
    (regexFind : String → Bool → String → Option (Nat × Nat))
    (config : RegexSearchConfig) (pattern : String) (tool : Tool) :
    List FieldMatch :=
  config.fields.filterMap fun field =>
    let text := if field = "name" then tool.name
      else (tool.description.getD "")
    (regexFind pattern config.caseInsensitive text).map fun m =>
      { field := field, index := m.1, matchLength := m.2 }

/-- Embedding of `RegexSearchProvider.calculateScore`: field weight plus position bonus
plus length bonus, accumulated over the matches, then `Math.min(1.0, ·)`. -/
def calculateScore (fieldMatches : List FieldMatch) : ℚ :=
  let totalScore := fieldMatches.foldl
    (fun totalScore m =>
      let score : ℚ :=
        (if m.field = "name" then 0.6 else 0.3)
        + max 0.05 (0.2 - (m.index : ℚ) * 0.003)
        + min 0.2 ((m.matchLength : ℚ) * 0.02)
      totalScore + score) 0
  min 1 totalScore

/-- First-occurrence-order deduplication, as `[...new Set(fields)]`. -/
def dedupFirst : List String → List String → List String
  | [], _ => []
  | x :: xs, seen =>
    if x ∈ seen then dedupFirst xs seen
    else x :: dedupFirst xs (x :: seen)

/-- Embedding of `RegexSearchProvider.buildMatchReason`. -/
def buildMatchReason (fieldMatches : List FieldMatch) : String :=
  let uniqueFields := dedupFirst (fieldMatches.map (·.field)) []
  "Matched in " ++ String.intercalate ", " uniqueFields

/-- Stable insertion used to model `results.sort((a, b) => b.score -
a.score)`: JavaScript's sort is stable, so equal scores keep input order. -/
def insertByScoreDesc (r : ToolSearchResult) :
    List ToolSearchResult → List ToolSearchResult
  | [] => [r]
  | x :: xs =>
    if r.score ≥ x.score then r :: x :: xs else x :: insertByScoreDesc r xs

/-- Stable sort of results by descending score. -/
def sortByScoreDesc (results : List ToolSearchResult) :
    List ToolSearchResult :=
  results.foldr insertByScoreDesc []

/-- Embedding of `RegexSearchProvider.search`.  The regex engine is the `regexFind`
argument; the compile-failure fallback to the escaped literal query concerns
only syntactically invalid configured patterns and is not modelled. -/
def regexSearch (regexFind : String → Bool → String → Option (Nat × Nat))
    (config : RegexSearchConfig) (query : ToolSearchQuery)
    (availableTools : List ToolWithServer) : List ToolSearchResult :=
  let hasCustomPattern := config.pattern.isSome
  let hasQuery := jsTrim query.query ≠ ""
  if ¬hasCustomPattern ∧ ¬hasQuery then
    (availableTools.take (effMaxResults query)).map fun tw =>
      { tool := tw.tool, serverUuid := tw.serverUuid, score := 0.5,
        matchReason := "No search query provided" }
  else
    let pattern := config.pattern.getD (escapeRegexLiteral query.query)
    let results := availableTools.filterMap fun tw =>
      let fieldMatches := searchToolFields regexFind config pattern tw.tool
      if fieldMatches.isEmpty then none
      else some
        { tool := tw.tool, serverUuid := tw.serverUuid,
          score := calculateScore fieldMatches,
          matchReason := buildMatchReason fieldMatches }
    (sortByScoreDesc results).take (effMaxResults query)

/-- First index at which `needle` occurs as a contiguous sublist of the
text. -/
def listIndexOf (needle : List Char) : List Char → Option Nat
  | [] => if needle = [] then some 0 else none
  | c :: rest =>
    if needle.isPrefixOf (c :: rest) then some 0
    else (listIndexOf needle rest).map (· + 1)

/-- A concrete regex engine valid for metacharacter-free patterns, for which
JavaScript regex matching is literal substring search (case-folded under the
`i` flag).  Used to instantiate `regexFind` on concrete inputs. -/
def litFind (pattern : String) (caseInsensitive : Bool) (text : String) :
    Option (Nat × Nat) :=
  let p := if caseInsensitive then pattern.toList.map Char.toLower
    else pattern.toList
  let t := if caseInsensitive then text.toList.map Char.toLower
    else text.toList
  (listIndexOf p t).map fun i => (i, p.length)

/-! Section: BM25 search provider (`bm25-search-provider.ts`) -/

/-- JavaScript word characters: `\w` is `[A-Za-z0-9_]`. -/
def isJsWordChar (c : Char) : Bool :=
  c.isAlphanum || c = '_'

/-- JavaScript `text.split(/\W+/)`: each maximal run of non-word characters is one
separator match.  `acc` holds the current piece reversed; `inSep` records
that the previous character extended a separator run. -/
def jsSplitNonWord (wordChar : Char → Bool) :
    List Char → List Char → Bool → List (List Char)
  | [], acc, _ => [acc.reverse]
  | c :: rest, acc, inSep =>
    if wordChar c then jsSplitNonWord wordChar rest (c :: acc) false
    else if inSep then jsSplitNonWord wordChar rest acc true
    else acc.reverse :: jsSplitNonWord wordChar rest [] true

/-- Embedding of `BM25SearchProvider.tokenize`: lowercase, split on `/\W+/`, drop empty
tokens.  (JavaScript `toLowerCase`/`\w` restricted to the ASCII behaviour,
matching `Char.toLower`/`isJsWordChar`.) -/
def tokenize (text : String) : List String :=
  ((jsSplitNonWord isJsWordChar (text.toList.map Char.toLower) [] false).map
    String.mk).filter (· ≠ "")

/-- The maximal runs of characters satisfying `wordChar`, in order: the
spec's description of tokenization ("split on maximal runs of characters
outside the class, drop empty tokens"). -/
def wordRuns (wordChar : Char → Bool) :
    List Char → List Char → List (List Char)
  | [], acc => if acc = [] then [] else [acc.reverse]
  | c :: rest, acc =>
    if wordChar c then wordRuns wordChar rest (c :: acc)
    else if acc = [] then wordRuns wordChar rest []
    else acc.reverse :: wordRuns wordChar rest []

/-- Tokenization as the spec words it, parameterised by the word-character
class (the claim's class is `[A-Za-z0-9]`; the amended class additionally
holds `_`). -/
def specTokenize (wordChar : Char → Bool) (text : String) : List String :=
  (wordRuns wordChar (text.toList.map Char.toLower) []).map String.mk

/-- Embedding of `BM25SearchProvider.search`.  The indexing/scoring path for non-empty
queries computes IDF values with `Math.log` and is abstracted as `rank`; the
empty-query branch is embedded exactly. -/
def bm25Search
    (rank : ToolSearchQuery → List ToolWithServer → List ToolSearchResult)
    (query : ToolSearchQuery) (availableTools : List ToolWithServer) :
    List ToolSearchResult :=
  if jsTrim query.query = "" then
    (availableTools.take (effMaxResults query)).map fun tw =>
      { tool := tw.tool, serverUuid := tw.serverUuid, score := 0.5,
        matchReason := "No search query provided" }
  else
    rank query availableTools

/-! Section: Builtin execute tool (`tool-execute-tool.ts`) -/

/-- One content block of a tool-call result. -/
inductive ContentBlock where
  | text (s : String) : ContentBlock
  | other (j : Json) : ContentBlock

/-- A tool-call result (`CallToolResult`). -/
structure CallToolResult where
  content : List ContentBlock
  isError : Bool

/-- Validated arguments of the execute tool (`ToolExecuteArguments`). -/
structure ToolExecuteArguments where
  tool_name : String
  arguments : List (String × Json)

/-- One AJV validation error, restricted to the fields the formatter reads. -/
structure AjvError where
  instancePath : String
  message : String

/-- Outcome of `validateToolArguments`. -/
structure ValidationOutcome where
  valid : Bool
  errors : List AjvError

/-- Embedding of `formatValidationErrors`: at most 10 errors, an overflow hint, then the
tool's `inputSchema` pretty-printed by `JSON.stringify` (abstracted as
`stringify`). -/
def formatValidationErrors (stringify : Option Json → String)
    (errors : List AjvError) (tool : Tool) : String :=
  let displayErrors := errors.take 10
  let remaining : Int := (errors.length : Int) - 10
  let errorMessages := String.intercalate "\n"
    (displayErrors.map fun err =>
      "  - " ++ (if err.instancePath = "" then "(root)"
        else err.instancePath) ++ ": " ++ err.message)
  let moreErrors := if remaining > 0 then
      "\n  ... and " ++ toString remaining ++ " more errors" else ""
  "Tool \"" ++ tool.name ++ "\" validation failed:\n\n" ++ errorMessages ++
    moreErrors ++ "\n\nExpected schema:\n```json\n" ++
    stringify tool.inputSchema ++ "\n```"

/-- Embedding of `executeToolExecution`: refuse the builtin names, find the target tool,
validate the arguments (AJV abstracted as `validate`), then delegate to the
proxy.  `proxyFunction` returning `Except.error` models the awaited call
throwing. -/
def executeToolExecution
    (validate : Tool → List (String × Json) → ValidationOutcome)
    (stringify : Option Json → String)
    (args : ToolExecuteArguments) (availableTools : List ToolWithServer)
    (proxyFunction : String → List (String × Json) →
      Except String CallToolResult) : CallToolResult :=
  if args.tool_name = TOOL_EXECUTE_TOOL_NAME ∨
      args.tool_name = TOOL_SEARCH_TOOL_NAME then
    { content := [ContentBlock.text
        ("Error: Cannot execute builtin tool \"" ++ args.tool_name ++
          "\" via metamcp_execute_tool")],
      isError := true }
  else
    match availableTools.find? (fun t => t.tool.name = args.tool_name) with
    | none =>
      let toolList := String.intercalate "\n"
        ((availableTools.take 10).map fun t => "  - " ++ t.tool.name)
      let moreTools := if availableTools.length > 10 then
          "\n  ... and " ++ toString (availableTools.length - 10) ++
            " more tools"
        else ""
      { content := [ContentBlock.text
          ("Error: Tool \"" ++ args.tool_name ++ "\" not found.\n\n" ++
            "Available tools:\n" ++ toolList ++ moreTools ++ "\n\n" ++
            "Use metamcp_search_tools to discover tools.")],
        isError := true }
    | some targetTool =>
      let validationResult := validate targetTool.tool args.arguments
      if validationResult.valid = false then
        { content := [ContentBlock.text
            (formatValidationErrors stringify validationResult.errors
              targetTool.tool)],
          isError := true }
      else
        match proxyFunction args.tool_name args.arguments with
        | Except.ok result => result
        | Except.error msg =>
          { content := [ContentBlock.text
              ("Error executing tool \"" ++ args.tool_name ++ "\": " ++
                msg)],
            isError := true }

/-! Section: Tool-search config input validation (`tool-search.zod.ts`) -/

/-- ASCII hexadecimal digit. -/
def isHexDigit (c : Char) : Bool :=
  c.isDigit || ('a' ≤ c ∧ c ≤ 'f') || ('A' ≤ c ∧ c ≤ 'F')

/-- Split a character list on every occurrence of `sep`. -/
def splitOnChar (sep : Char) : List Char → List Char → List (List Char)
  | [], acc => [acc.reverse]
  | c :: rest, acc =>
    if c = sep then acc.reverse :: splitOnChar sep rest []
    else splitOnChar sep rest (c :: acc)

/-- Validation `z.string().uuid()`: the canonical 8-4-4-4-12 hexadecimal shape. -/
def isUuidLike (s : String) : Bool :=
  match splitOnChar '-' s.toList [] with
  | [a, b, c, d, e] =>
    a.length = 8 && b.length = 4 && c.length = 4 && d.length = 4 &&
    e.length = 12 && (a ++ b ++ c ++ d ++ e).all isHexDigit
  | _ => false

/-- A `z.number()` value holds a (double) number; a number passes `.int()` iff it is
an integer. -/
def isIntNumber (q : ℚ) : Bool := q.den = 1

/-- The upsert request body
(`ToolSearchConfigUpsertInputSchema`).  `providerConfig` is
`z.record(z.unknown()).nullable().optional()`: `none` models the key being
absent, `some Json.null` the JSON `null`. -/
structure UpsertInput where
  namespaceUuid : String
  maxResults : ℚ
  providerConfig : Option Json

/-- Validation performed by `ToolSearchConfigUpsertInputSchema.parse` on the
`upsert` procedure's input: a uuid, an integer `maxResults` in `[1, 20]`,
and — for `providerConfig` — only that the value, when present, is an object
or `null`. -/
def upsertInputValid (input : UpsertInput) : Bool :=
  isUuidLike input.namespaceUuid &&
  isIntNumber input.maxResults &&
  decide ((1 : ℚ) ≤ input.maxResults) &&
  decide (input.maxResults ≤ (20 : ℚ)) &&
  (match input.providerConfig with
   | none => true
   | some Json.null => true
   | some (Json.obj _) => true
   | some _ => false)

/-- Embedding of `BM25ConfigSchema`: `k1` in `[0, 3]`, `b` in `[0, 1]`, `fields` a string
array, each optional; non-object values are rejected, unknown keys are
ignored (non-strict `z.object`). -/
def bm25ConfigValid (config : Json) : Bool :=
  match config with
  | Json.obj fields =>
    (match List.lookup "k1" fields with
     | none => true
     | some (Json.num q) => decide ((0 : ℚ) ≤ q) && decide (q ≤ (3 : ℚ))
     | some _ => false) &&
    (match List.lookup "b" fields with
     | none => true
     | some (Json.num q) => decide ((0 : ℚ) ≤ q) && decide (q ≤ (1 : ℚ))
     | some _ => false) &&
    (match List.lookup "fields" fields with
     | none => true
     | some (Json.arr elems) =>
       elems.all fun e => match e with
         | Json.str _ => true
         | _ => false
     | some _ => false)
  | _ => false

/-! Section: Helper lemmas -/

theorem foldl_add_eq_sum (f : FieldMatch → ℚ) (l : List FieldMatch) :
    ∀ a : ℚ, l.foldl (fun t m => t + f m) a = a + (l.map f).sum := by
  induction l with
  | nil => intro a; simp
  | cons m rest ih =>
    intro a
    simp only [List.foldl_cons, List.map_cons, List.sum_cons]
    rw [ih]
    ring

theorem fieldMatchScore_nonneg (m : FieldMatch) :
    (0 : ℚ) ≤ (if m.field = "name" then (0.6 : ℚ) else 0.3)
      + max 0.05 (0.2 - (m.index : ℚ) * 0.003)
      + min 0.2 ((m.matchLength : ℚ) * 0.02) := by
  have h1 : (0 : ℚ) ≤ (if m.field = "name" then (0.6 : ℚ) else 0.3) := by
    split <;> norm_num
  have h2 : (0.05 : ℚ) ≤ max 0.05 (0.2 - (m.index : ℚ) * 0.003) :=
    le_max_left _ _
  have h3 : (0 : ℚ) ≤ min 0.2 ((m.matchLength : ℚ) * 0.02) := by
    refine le_min (by norm_num) ?_
    positivity
  linarith

/-! Section: C1 — service `search` with method NONE -/

/-- C1 (counterexample): with two available tools and `maxResults = 1`, the
`NONE` branch of `ToolSearchService.search` returns both tools, so the
result is not bounded by the resolved config's `maxResults` as claimed. -/
theorem serviceSearch_none_maxResults_cex :
    ¬ ((serviceSearch (fun _ _ _ _ => [])
        { query := "file", maxResults := none,
          namespaceUuid := none, endpointUuid := none }
        [{ tool := { name := "a", description := none, inputSchema := none,
                     defer_loading := none }, serverUuid := "s1" },
         { tool := { name := "b", description := none, inputSchema := none,
                     defer_loading := none }, serverUuid := "s2" }]
        { searchMethod := SearchMethod.NONE, maxResults := 1,
          providerConfig := none }).length ≤ 1) := by
  decide

/-- C1 (amended): when the resolved config's `searchMethod` is `NONE`,
`ToolSearchService.search` returns one result per available tool with
`score = 0.5` and `matchReason = "Search disabled (method: NONE)"`, in pool
order and without truncating to `maxResults`: the result has exactly the
length of the pool. -/
theorem serviceSearch_none_spec
    (providerSearch : SearchMethod → Option Json → ToolSearchQuery →
      List ToolWithServer → List ToolSearchResult)
    (query : ToolSearchQuery) (availableTools : List ToolWithServer)
    (maxResults : Nat) (providerConfig : Option Json) :
    serviceSearch providerSearch query availableTools
        { searchMethod := SearchMethod.NONE, maxResults := maxResults,
          providerConfig := providerConfig }
      = availableTools.map (fun tw =>
          { tool := tw.tool, serverUuid := tw.serverUuid, score := 0.5,
            matchReason := "Search disabled (method: NONE)" })
    ∧ (serviceSearch providerSearch query availableTools
        { searchMethod := SearchMethod.NONE, maxResults := maxResults,
          providerConfig := providerConfig }).length
      = availableTools.length := by
  constructor
  · simp [serviceSearch]
  · simp [serviceSearch]

/-! Section: C8 — REGEX provider scoring formula -/

/-- C8: for every list of field matches, `calculateScore` equals the sum,
over the matches, of the field weight (`0.6` for `name`, `0.3` otherwise)
plus the position bonus `max(0.05, 0.20 − 0.003·index)` plus the length
bonus `min(0.20, 0.02·matchLength)`, with the total clamped to `[0, 1]`
(the code's `min(1, ·)` agrees with the clamp because the total is never
negative). -/
theorem calculateScore_eq_clamped_sum (fieldMatches : List FieldMatch) :
    calculateScore fieldMatches
      = max 0 (min 1 ((fieldMatches.map (fun m =>
          (if m.field = "name" then (0.6 : ℚ) else 0.3)
          + max 0.05 (0.2 - (m.index : ℚ) * 0.003)
          + min 0.2 ((m.matchLength : ℚ) * 0.02))).sum)) := by
  unfold calculateScore
  rw [foldl_add_eq_sum, zero_add]
  have hsum : (0 : ℚ) ≤ (fieldMatches.map (fun m =>
      (if m.field = "name" then (0.6 : ℚ) else 0.3)
      + max 0.05 (0.2 - (m.index : ℚ) * 0.003)
      + min 0.2 ((m.matchLength : ℚ) * 0.02))).sum := by
    refine List.sum_nonneg ?_
    intro x hx
    obtain ⟨m, _, rfl⟩ := List.mem_map.mp hx
    exact fieldMatchScore_nonneg m
  rw [max_eq_right (le_min (by norm_num) hsum)]

/-! Section: C2 / C10 — defer-loading flag application -/

theorem applyDeferLoadingTool_idem (config : ResolvedDeferLoadingConfig)
    (t : Tool) :
    applyDeferLoadingTool config (applyDeferLoadingTool config t)
      = applyDeferLoadingTool config t := by
  by_cases hname : t.name = TOOL_SEARCH_TOOL_NAME
  · simp [applyDeferLoadingTool, hname]
  · cases hlk : List.lookup t.name config.toolOverrides with
    | none =>
      by_cases hen : config.deferLoadingEnabled
      · simp [applyDeferLoadingTool, hname, hlk, hen]
      · simp [applyDeferLoadingTool, hname, hlk, hen]
    | some b =>
      cases b with
      | true => simp [applyDeferLoadingTool, hname, hlk]
      | false => simp [applyDeferLoadingTool, hname, hlk]

/-- C2: `applyDeferLoading` maps each tool independently, producing a list of
the same length (the input list itself is of course unchanged — the
embedding is pure, as the source promises by cloning): the builtin
`search_tools` entry is unchanged; a tool whose per-tool override is `false`
is unchanged; one whose override is `true` becomes a clone with
`defer_loading = true`; with no override the tool becomes such a clone
exactly when `deferLoadingEnabled` holds and is unchanged otherwise. -/
theorem applyDeferLoading_spec (tools : List Tool)
    (config : ResolvedDeferLoadingConfig) (i : Nat) (t : Tool)
    (ht : tools[i]? = some t) :
    (applyDeferLoading tools config).length = tools.length
    ∧ (t.name = TOOL_SEARCH_TOOL_NAME →
        (applyDeferLoading tools config)[i]? = some t)
    ∧ (t.name ≠ TOOL_SEARCH_TOOL_NAME →
        List.lookup t.name config.toolOverrides = some false →
        (applyDeferLoading tools config)[i]? = some t)
    ∧ (t.name ≠ TOOL_SEARCH_TOOL_NAME →
        List.lookup t.name config.toolOverrides = some true →
        (applyDeferLoading tools config)[i]?
          = some { t with defer_loading := some true })
    ∧ (t.name ≠ TOOL_SEARCH_TOOL_NAME →
        List.lookup t.name config.toolOverrides = none →
        config.deferLoadingEnabled = true →
        (applyDeferLoading tools config)[i]?
          = some { t with defer_loading := some true })
    ∧ (t.name ≠ TOOL_SEARCH_TOOL_NAME →
        List.lookup t.name config.toolOverrides = none →
        config.deferLoadingEnabled = false →
        (applyDeferLoading tools config)[i]? = some t) := by
  refine ⟨by simp [applyDeferLoading], ?_, ?_, ?_, ?_, ?_⟩
  · intro hname
    simp [applyDeferLoading, ht, applyDeferLoadingTool, hname]
  · intro hname hlk
    simp [applyDeferLoading, ht, applyDeferLoadingTool, hname, hlk]
  · intro hname hlk
    simp [applyDeferLoading, ht, applyDeferLoadingTool, hname, hlk]
  · intro hname hlk hen
    simp [applyDeferLoading, ht, applyDeferLoadingTool, hname, hlk, hen]
  · intro hname hlk hen
    simp [applyDeferLoading, ht, applyDeferLoadingTool, hname, hlk, hen]

/-- C2 (witness): the spec theorem applied to a concrete one-tool list with
defer loading enabled and no override: the tool gets flagged. -/
theorem applyDeferLoading_spec_witness :
    (([{ name := "x", description := none, inputSchema := none,
         defer_loading := none }] : List Tool)[0]?
      = some { name := "x", description := none, inputSchema := none,
               defer_loading := none })
    ∧ (applyDeferLoading
        [{ name := "x", description := none, inputSchema := none,
           defer_loading := none }]
        { deferLoadingEnabled := true, searchMethod := SearchMethod.NONE,
          toolOverrides := [] })[0]?
      = some { name := "x", description := none, inputSchema := none,
               defer_loading := some true } :=
  ⟨rfl, (applyDeferLoading_spec
    [{ name := "x", description := none, inputSchema := none,
       defer_loading := none }]
    { deferLoadingEnabled := true, searchMethod := SearchMethod.NONE,
      toolOverrides := [] } 0
    { name := "x", description := none, inputSchema := none,
      defer_loading := none } rfl).2.2.2.2.1 (by decide) rfl rfl⟩

/-- C10: applying the middleware's flag-application step to its own output
with the same resolved config returns that output unchanged: re-application
of `defer_loading` flags is a no-op. -/
theorem applyDeferLoading_idem (tools : List Tool)
    (config : ResolvedDeferLoadingConfig) :
    applyDeferLoading (applyDeferLoading tools config) config
      = applyDeferLoading tools config := by
  unfold applyDeferLoading
  rw [List.map_map]
  exact List.map_congr_left fun t _ => applyDeferLoadingTool_idem config t

/-! Section: C3 — configuration hierarchy resolution -/

/-- C3: the resolver computes `deferLoadingEnabled` as `true` for an
`ENABLED` endpoint override, `false` for `DISABLED`, and the namespace
default for `INHERIT` or an absent endpoint; and `searchMethod` as the
endpoint override when it is neither `INHERIT` nor unset, otherwise the
namespace default. -/
theorem resolveConfig_hierarchy (namespaceCfg : NamespaceConfig)
    (endpoint : Option EndpointConfig) (toolOverrides : ToolOverrides) :
    (∀ e, endpoint = some e →
      e.override_defer_loading = DeferLoadingBehavior.ENABLED →
      (resolveConfigForEndpoint namespaceCfg endpoint
        toolOverrides).deferLoadingEnabled = true)
    ∧ (∀ e, endpoint = some e →
      e.override_defer_loading = DeferLoadingBehavior.DISABLED →
      (resolveConfigForEndpoint namespaceCfg endpoint
        toolOverrides).deferLoadingEnabled = false)
    ∧ (∀ e, endpoint = some e →
      e.override_defer_loading = DeferLoadingBehavior.INHERIT →
      (resolveConfigForEndpoint namespaceCfg endpoint
        toolOverrides).deferLoadingEnabled
        = namespaceCfg.default_defer_loading)
    ∧ (endpoint = none →
      (resolveConfigForEndpoint namespaceCfg endpoint
        toolOverrides).deferLoadingEnabled
        = namespaceCfg.default_defer_loading
      ∧ (resolveConfigForEndpoint namespaceCfg endpoint
          toolOverrides).searchMethod
        = namespaceCfg.default_search_method)
    ∧ (∀ e m, endpoint = some e →
      e.override_search_method = some (SearchMethodOverride.method m) →
      (resolveConfigForEndpoint namespaceCfg endpoint
        toolOverrides).searchMethod = m)
    ∧ (∀ e, endpoint = some e →
      (e.override_search_method = some SearchMethodOverride.inherit ∨
        e.override_search_method = none) →
      (resolveConfigForEndpoint namespaceCfg endpoint
        toolOverrides).searchMethod
        = namespaceCfg.default_search_method) := by
  refine ⟨?_, ?_, ?_, ?_, ?_, ?_⟩
  · rintro e rfl he
    simp [resolveConfigForEndpoint, resolveDeferLoadingConfig,
      endpointOrInherit, he]
  · rintro e rfl he
    simp [resolveConfigForEndpoint, resolveDeferLoadingConfig,
      endpointOrInherit, he]
  · rintro e rfl he
    simp [resolveConfigForEndpoint, resolveDeferLoadingConfig,
      endpointOrInherit, he]
  · rintro rfl
    simp [resolveConfigForEndpoint, resolveDeferLoadingConfig,
      endpointOrInherit]
  · rintro e m rfl he
    simp [resolveConfigForEndpoint, resolveDeferLoadingConfig,
      endpointOrInherit, he]
  · rintro e rfl (he | he) <;>
      simp [resolveConfigForEndpoint, resolveDeferLoadingConfig,
        endpointOrInherit, he]

/-- C3 (witness): the hierarchy theorem applied to a concrete namespace and
endpoint whose overrides are `ENABLED` and a set search method. -/
theorem resolveConfig_hierarchy_witness :
    ((some { override_defer_loading := DeferLoadingBehavior.ENABLED,
             override_search_method :=
               some (SearchMethodOverride.method SearchMethod.BM25) }
        : Option EndpointConfig)
      = some { override_defer_loading := DeferLoadingBehavior.ENABLED,
               override_search_method :=
                 some (SearchMethodOverride.method SearchMethod.BM25) })
    ∧ (resolveConfigForEndpoint
        { default_defer_loading := false,
          default_search_method := SearchMethod.NONE }
        (some { override_defer_loading := DeferLoadingBehavior.ENABLED,
                override_search_method :=
                  some (SearchMethodOverride.method SearchMethod.BM25) })
        []).deferLoadingEnabled = true :=
  ⟨rfl, (resolveConfig_hierarchy
    { default_defer_loading := false,
      default_search_method := SearchMethod.NONE }
    (some { override_defer_loading := DeferLoadingBehavior.ENABLED,
            override_search_method :=
              some (SearchMethodOverride.method SearchMethod.BM25) })
    []).1
    { override_defer_loading := DeferLoadingBehavior.ENABLED,
      override_search_method :=
        some (SearchMethodOverride.method SearchMethod.BM25) } rfl rfl⟩

/-! Section: C9 — fail-safe configuration and cache bypass -/

/-- C9: when any repository read throws or the namespace row is absent,
`getResolvedConfig` (on a cache miss for the endpoint) returns the fail-safe
configuration and leaves the cache untouched, so a later call for the same
endpoint performs a fresh fetch; the in-source fail-safe agrees with the
spec's rich fail-safe `{deferLoadingEnabled=false, searchMethod=NONE,
toolVisibility=ALL, toolOverrides={}, maxResults=5, providerConfig=null}`
on every field the in-source middleware resolves. -/
theorem getResolvedConfig_failSafe (cache : ConfigCache)
    (endpointUuid : String) (fetch : FetchResults)
    (hmiss : cacheGet cache endpointUuid = none)
    (hfail : fetch.namespaceResult = Except.error ()
      ∨ fetch.namespaceResult = Except.ok none
      ∨ fetch.endpointResult = Except.error ()
      ∨ fetch.overridesResult = Except.error ()) :
    (getResolvedConfig cache endpointUuid fetch).1 = getFailSafeConfig
    ∧ (getResolvedConfig cache endpointUuid fetch).2 = cache
    ∧ (∀ fetch2, getResolvedConfig
        (getResolvedConfig cache endpointUuid fetch).2 endpointUuid fetch2
        = fetchAndCacheConfig cache endpointUuid fetch2)
    ∧ richFailSafeConfig.core = getFailSafeConfig
    ∧ richFailSafeConfig
      = { deferLoadingEnabled := false,
          searchMethod := SearchMethod.NONE,
          toolVisibility := ToolVisibility.ALL,
          toolOverrides := [],
          maxResults := 5,
          providerConfig := none } := by
  obtain ⟨nsr, epr, ovr⟩ := fetch
  have hfc : fetchAndCacheConfig cache endpointUuid ⟨nsr, epr, ovr⟩
      = (getFailSafeConfig, cache) := by
    cases nsr with
    | error e => simp [fetchAndCacheConfig]
    | ok nso =>
      cases nso with
      | none => simp [fetchAndCacheConfig]
      | some ns =>
        cases epr with
        | error e => simp [fetchAndCacheConfig]
        | ok epo =>
          cases ovr with
          | error e => simp [fetchAndCacheConfig]
          | ok ov => simp_all
  refine ⟨?_, ?_, ?_, rfl, rfl⟩
  · simp [getResolvedConfig, hmiss, hfc]
  · simp [getResolvedConfig, hmiss, hfc]
  · intro fetch2
    simp [getResolvedConfig, hmiss, hfc]

/-- C9 (witness): the fail-safe theorem applied to an empty cache and a
fetch whose namespace read throws. -/
theorem getResolvedConfig_failSafe_witness :
    (cacheGet ([] : ConfigCache) "ep-1" = none)
    ∧ (getResolvedConfig ([] : ConfigCache) "ep-1"
        { namespaceResult := Except.error (),
          endpointResult := Except.ok none,
          overridesResult := Except.ok [] }).1 = getFailSafeConfig :=
  ⟨rfl, (getResolvedConfig_failSafe [] "ep-1"
    { namespaceResult := Except.error (),
      endpointResult := Except.ok none,
      overridesResult := Except.ok [] } rfl (Or.inl rfl)).1⟩

/-! Section: C4 — execute-tool builtin guard -/

/-- C4: when `tool_name` equals the public name of `search_tools` or of
`execute_tool`, the dispatcher returns — for every candidate pool, argument
validator and proxy function, hence without searching the pool, validating
arguments or invoking the proxy — the fixed error result with
`isError = true` whose text contains `Cannot execute builtin tool "<name>"`. -/
theorem executeToolExecution_builtin_guard
    (validate : Tool → List (String × Json) → ValidationOutcome)
    (stringify : Option Json → String)
    (args : ToolExecuteArguments) (availableTools : List ToolWithServer)
    (proxyFunction : String → List (String × Json) →
      Except String CallToolResult)
    (hbuiltin : args.tool_name = TOOL_SEARCH_TOOL_NAME ∨
      args.tool_name = TOOL_EXECUTE_TOOL_NAME) :
    executeToolExecution validate stringify args availableTools
        proxyFunction
      = { content := [ContentBlock.text
            ("Error: Cannot execute builtin tool \"" ++ args.tool_name ++
              "\" via metamcp_execute_tool")],
          isError := true }
    ∧ ∃ pre post,
        "Error: Cannot execute builtin tool \"" ++ args.tool_name ++
            "\" via metamcp_execute_tool"
          = pre ++ ("Cannot execute builtin tool \"" ++ args.tool_name ++
              "\"") ++ post := by
  rcases hbuiltin with h | h <;> rw [h]
  · exact ⟨by simp [executeToolExecution, TOOL_SEARCH_TOOL_NAME,
        TOOL_EXECUTE_TOOL_NAME, h],
      "Error: ", " via metamcp_execute_tool", by decide⟩
  · exact ⟨by simp [executeToolExecution, TOOL_SEARCH_TOOL_NAME,
        TOOL_EXECUTE_TOOL_NAME, h],
      "Error: ", " via metamcp_execute_tool", by decide⟩

/-- C4 (witness): the guard theorem applied to a call naming
`metamcp_search_tools`, with a nonempty pool, a validator accepting
everything and a proxy that would succeed: the guard result is still the
fixed error. -/
theorem executeToolExecution_builtin_guard_witness :
    (("metamcp_search_tools" : String) = TOOL_SEARCH_TOOL_NAME ∨
      ("metamcp_search_tools" : String) = TOOL_EXECUTE_TOOL_NAME)
    ∧ executeToolExecution (fun _ _ => { valid := true, errors := [] })
        (fun _ => "")
        { tool_name := "metamcp_search_tools", arguments := [] }
        [{ tool := { name := "metamcp_search_tools", description := none,
                     inputSchema := none, defer_loading := none },
           serverUuid := "s1" }]
        (fun _ _ => Except.ok { content := [], isError := false })
      = { content := [ContentBlock.text
            ("Error: Cannot execute builtin tool \"metamcp_search_tools\"" ++
              " via metamcp_execute_tool")],
          isError := true } :=
  ⟨Or.inl rfl, by
    have h := (executeToolExecution_builtin_guard
      (fun _ _ => { valid := true, errors := [] }) (fun _ => "")
      { tool_name := "metamcp_search_tools", arguments := [] }
      [{ tool := { name := "metamcp_search_tools", description := none,
                   inputSchema := none, defer_loading := none },
         serverUuid := "s1" }]
      (fun _ _ => Except.ok { content := [], isError := false })
      (Or.inl rfl)).1
    simpa using h⟩

/-! Section: C5 — BM25 tokenization -/

theorem jsSplit_filter_eq_wordRuns (w : Char → Bool) (l : List Char) :
    ∀ (acc : List Char) (inSep : Bool), (inSep = true → acc = []) →
      (jsSplitNonWord w l acc inSep).filter (fun p => p ≠ [])
        = wordRuns w l acc := by
  induction l with
  | nil =>
    intro acc inSep _
    by_cases h : acc = [] <;> simp [jsSplitNonWord, wordRuns, h]
  | cons c rest ih =>
    intro acc inSep hinv
    by_cases hw : w c
    · simpa [jsSplitNonWord, wordRuns, hw] using
        ih (c :: acc) false (by simp)
    · cases inSep with
      | true =>
        have hacc := hinv rfl
        subst hacc
        simpa [jsSplitNonWord, wordRuns, hw] using
          ih [] true (fun _ => rfl)
      | false =>
        by_cases hacc : acc = []
        · subst hacc
          simpa [jsSplitNonWord, wordRuns, hw] using
            ih [] true (fun _ => rfl)
        · have hrev : acc.reverse ≠ [] := by simpa using hacc
          simpa [jsSplitNonWord, wordRuns, hw, hacc, hrev] using
            ih [] true (fun _ => rfl)

/-- C5 (counterexample): the BM25 tokenizer keeps underscores inside tokens
(JavaScript `\W` is `[^A-Za-z0-9_]`), so it differs from the claimed
splitting on runs outside `[A-Za-z0-9]`: on `"read_file"` the code yields
one token where the claim demands two. -/
theorem tokenize_underscore_cex :
    tokenize "read_file" = ["read_file"]
    ∧ specTokenize (fun c => c.isAlphanum) "read_file" = ["read", "file"]
    ∧ tokenize "read_file"
      ≠ specTokenize (fun c => c.isAlphanum) "read_file" := by
  refine ⟨by decide, by decide, by decide⟩

/-- C5 (amended): the BM25 tokenizer equals: lowercase the string, split on
maximal runs of characters outside `[A-Za-z0-9_]`, and drop empty tokens —
underscores do not separate tokens. -/
theorem tokenize_eq_wordRuns (text : String) :
    tokenize text = specTokenize isJsWordChar text := by
  unfold tokenize specTokenize
  have hcomm :
      ((jsSplitNonWord isJsWordChar (text.toList.map Char.toLower) []
          false).map String.mk).filter (· ≠ "")
        = ((jsSplitNonWord isJsWordChar (text.toList.map Char.toLower) []
            false).filter (fun p => p ≠ [])).map String.mk := by
    rw [List.filter_map]
    have hpred : ((fun x => decide (x ≠ "")) ∘ String.mk)
        = (fun p : List Char => decide (p ≠ [])) := by
      funext l
      have hmk : (String.mk l = "") ↔ (l = []) := by
        simp [String.ext_iff]
      simp [Function.comp, hmk]
    rw [hpred]
  rw [hcomm, jsSplit_filter_eq_wordRuns isJsWordChar _ [] false
    (by simp)]

/-! Section: C6 — upsert input validation -/

/-- C6 (counterexample): an upsert request whose `providerConfig` carries
`k1 = 100` — far outside `[0, 3]`, as `BM25ConfigSchema` would reject — is
accepted by `ToolSearchConfigUpsertInputSchema`, because the upsert schema
validates `providerConfig` only as an arbitrary record. -/
theorem upsertValidation_k1_cex :
    upsertInputValid
        { namespaceUuid := "123e4567-e89b-12d3-a456-426614174000",
          maxResults := 5,
          providerConfig := some (Json.obj [("k1", Json.num 100)]) }
      = true
    ∧ bm25ConfigValid (Json.obj [("k1", Json.num 100)]) = false
    ∧ ¬ ((100 : ℚ) ≤ 3) := by
  refine ⟨by decide, by decide, by norm_num⟩

/-- C6 (amended): the upsert input validation checks `maxResults` to be an
integer in `[1, 20]`, while `providerConfig` is accepted as an arbitrary
JSON object (or null/absent): its contents — in particular `k1` and `b` —
play no role in the decision, the `BM25ConfigSchema` bounds not being
applied on upsert. -/
theorem upsertValidation_ignores_providerConfig (ns : String) (mr : ℚ)
    (o1 o2 : List (String × Json)) :
    (upsertInputValid
        { namespaceUuid := ns, maxResults := mr,
          providerConfig := some (Json.obj o1) }
      = upsertInputValid
        { namespaceUuid := ns, maxResults := mr,
          providerConfig := some (Json.obj o2) })
    ∧ (upsertInputValid
        { namespaceUuid := ns, maxResults := mr,
          providerConfig := some (Json.obj o1) } = true →
      mr.den = 1 ∧ (1 : ℚ) ≤ mr ∧ mr ≤ 20) := by
  constructor
  · simp [upsertInputValid]
  · intro h
    simp only [upsertInputValid, isIntNumber, Bool.and_eq_true,
      decide_eq_true_eq] at h
    exact ⟨h.1.1.1.2, h.1.1.2, h.1.2⟩

/-- C6 (witness): the amended theorem applied to a concrete valid request
whose `providerConfig` holds an out-of-bounds `k1`. -/
theorem upsertValidation_ignores_providerConfig_witness :
    (upsertInputValid
        { namespaceUuid := "123e4567-e89b-12d3-a456-426614174000",
          maxResults := 5,
          providerConfig := some (Json.obj [("k1", Json.num 100)]) }
      = true)
    ∧ ((5 : ℚ).den = 1 ∧ (1 : ℚ) ≤ 5 ∧ (5 : ℚ) ≤ 20) :=
  ⟨by decide,
    (upsertValidation_ignores_providerConfig
      "123e4567-e89b-12d3-a456-426614174000" 5
      [("k1", Json.num 100)] []).2 (by decide)⟩

/-! Section: C7 — empty-query policy -/

/-- C7 (counterexample): a REGEX provider configured with a custom pattern
does not apply the empty-query policy: with pattern `"a"` (metacharacter
free, so matching is literal substring search), an empty query and one
non-matching tool, the provider returns no results instead of the claimed
neutral-scored tool. -/
theorem regexSearch_emptyQuery_pattern_cex :
    regexSearch litFind
        { pattern := some "a", caseInsensitive := true,
          fields := ["name", "description"] }
        { query := "", maxResults := none, namespaceUuid := none,
          endpointUuid := none }
        [{ tool := { name := "b", description := some "b",
                     inputSchema := none, defer_loading := none },
           serverUuid := "s1" }]
      = []
    ∧ ([] : List ToolSearchResult)
      ≠ [{ tool := { name := "b", description := some "b",
                     inputSchema := none, defer_loading := none },
           serverUuid := "s1", score := 0.5,
           matchReason := "No search query provided" }] := by
  constructor
  · rfl
  · intro h
    exact List.noConfusion h

/-- C7 (amended): on a query that is empty or only whitespace, the BM25
provider — and the REGEX provider when no custom pattern is configured —
returns the first `maxResults` available tools in input order, each with
`score = 0.5` and `matchReason = "No search query provided"`; with a
configured pattern the REGEX provider searches with that pattern instead. -/
theorem emptyQuery_policy
    (rank : ToolSearchQuery → List ToolWithServer → List ToolSearchResult)
    (regexFind : String → Bool → String → Option (Nat × Nat))
    (caseInsensitive : Bool) (fields : List String)
    (query : ToolSearchQuery) (availableTools : List ToolWithServer)
    (hempty : jsTrim query.query = "") :
    bm25Search rank query availableTools
      = (availableTools.take (effMaxResults query)).map (fun tw =>
          { tool := tw.tool, serverUuid := tw.serverUuid, score := 0.5,
            matchReason := "No search query provided" })
    ∧ regexSearch regexFind
        { pattern := none, caseInsensitive := caseInsensitive,
          fields := fields } query availableTools
      = (availableTools.take (effMaxResults query)).map (fun tw =>
          { tool := tw.tool, serverUuid := tw.serverUuid, score := 0.5,
            matchReason := "No search query provided" }) := by
  constructor
  · simp [bm25Search, hempty]
  · simp [regexSearch, hempty]

/-- C7 (witness): the empty-query policy applied to a whitespace query over
two tools with `maxResults = 1`. -/
theorem emptyQuery_policy_witness :
    (jsTrim "  " = "")
    ∧ bm25Search (fun _ _ => [])
        { query := "  ", maxResults := some 1, namespaceUuid := none,
          endpointUuid := none }
        [{ tool := { name := "a", description := none, inputSchema := none,
                     defer_loading := none }, serverUuid := "s1" },
         { tool := { name := "b", description := none, inputSchema := none,
                     defer_loading := none }, serverUuid := "s2" }]
      = [{ tool := { name := "a", description := none, inputSchema := none,
                     defer_loading := none }, serverUuid := "s1",
           score := 0.5, matchReason := "No search query provided" }] :=
  ⟨by decide, by
    have h := (emptyQuery_policy (fun _ _ => []) litFind true
      ["name", "description"]
      { query := "  ", maxResults := some 1, namespaceUuid := none,
        endpointUuid := none }
      [{ tool := { name := "a", description := none, inputSchema := none,
                   defer_loading := none }, serverUuid := "s1" },
       { tool := { name := "b", description := none, inputSchema := none,
                   defer_loading := none }, serverUuid := "s2" }]
      (by decide)).1
    simpa using h⟩

end MetaMCP
